import Mathlib

/-!
Shallow embedding of the chronovault ("TCFS") core: the error/result kernel
(include/tcfs/Errors.hpp, src/libtcfs/core/Errors.cpp), the time-lock Policy
model with its RFC3339 time parsing/formatting and JSON round-trip
(include/tcfs/Policy.hpp, src/libtcfs/core/Policy.cpp), and the mock
cryptographic provider (src/libtcfs/crypto/OpenSSLCryptoProvider.cpp,
`#else` branch).

Modelling conventions:
* `std::chrono::system_clock::time_point` is modelled as an `Int` counting
  milliseconds since the Unix epoch (the C++ clock has a finer tick, but
  every distinction the code can observe - sub-second truncation when
  converting to `time_t`, strict comparisons against "now" - is already
  visible at millisecond granularity).
* Byte values (`uint8_t`) are modelled as `Nat`; theorems that depend on
  the 0..255 range carry it as a hypothesis.
* C++ strings that the code inspects character by character are modelled as
  `List Char`; diagnostic messages, which are only ever compared as wholes,
  stay `String`.
* Functions that throw (`TCFSException`, `std::invalid_argument`) are
  modelled with `Except` / `Option`; functions returning `tcfs::Result<T>`
  are modelled with the `Result` type below.
* `time_utils::now()` reads the wall clock; every function that calls it is
  modelled with an explicit `now` parameter.
-/

/-- Error codes, mirroring `enum class ErrorCode` in include/tcfs/Errors.hpp. -/
inductive ErrorCode where
  | SUCCESS
  | CRYPTO_ERROR
  | CryptoInitFailed
  | EncryptionFailed
  | DecryptionFailed
  | InvalidKey
  | InvalidIV
  | TIME_NOT_REACHED
  | TimeNotReached
  | InvalidTimeFormat
  | ClockManipulation
  | FILE_NOT_FOUND
  | FILE_ACCESS_ERROR
  | FileNotFound
  | FileAccessDenied
  | InvalidMetadata
  | CorruptedData
  | INVALID_POLICY
  | POLICY_VIOLATION
  | InvalidPolicy
  | PolicyViolation
  | AUDIT_LOG_ERROR
  | AuditLogCorrupted
  | HashChainBroken
  | INVALID_FORMAT
  | UNKNOWN_ERROR
  | InvalidArgument
  | InternalError
  | NotImplemented
  deriving DecidableEq, Repr

/-- `tcfs::to_string(ErrorCode)` from src/libtcfs/core/Errors.cpp. -/
def errorCodeString : ErrorCode → String
  | .SUCCESS => "Success"
  | .CRYPTO_ERROR => "Cryptographic operation failed"
  | .CryptoInitFailed => "Cryptographic initialization failed"
  | .EncryptionFailed => "Encryption operation failed"
  | .DecryptionFailed => "Decryption operation failed"
  | .InvalidKey => "Invalid cryptographic key"
  | .InvalidIV => "Invalid initialization vector"
  | .TIME_NOT_REACHED => "Unlock time has not been reached"
  | .TimeNotReached => "Unlock time has not been reached"
  | .InvalidTimeFormat => "Invalid time format"
  | .ClockManipulation => "Clock manipulation detected"
  | .FILE_NOT_FOUND => "File not found"
  | .FILE_ACCESS_ERROR => "File access error"
  | .FileNotFound => "File not found"
  | .FileAccessDenied => "File access denied"
  | .InvalidMetadata => "Invalid metadata"
  | .CorruptedData => "Data corruption detected"
  | .INVALID_POLICY => "Invalid policy configuration"
  | .POLICY_VIOLATION => "Policy violation"
  | .InvalidPolicy => "Invalid policy configuration"
  | .PolicyViolation => "Policy violation"
  | .AUDIT_LOG_ERROR => "Audit log error"
  | .AuditLogCorrupted => "Audit log corrupted"
  | .HashChainBroken => "Hash chain integrity broken"
  | .INVALID_FORMAT => "Invalid file format"
  | .UNKNOWN_ERROR => "Unknown error"
  | .InvalidArgument => "Invalid argument"
  | .InternalError => "Internal error"
  | .NotImplemented => "Feature not implemented"

/-- `tcfs::TCFSException` (include/tcfs/Errors.hpp): an error code plus a
message, as captured by `getErrorCode()` / `getMessage()`. -/
structure TCFSException where
  code : ErrorCode
  message : String
  deriving DecidableEq, Repr

/-- `TCFSException::what()` (src/libtcfs/core/Errors.cpp): the code's
description, followed by `": " + message` when the message is non-empty. -/
def TCFSException.whatMessage (e : TCFSException) : String :=
  if e.message = "" then errorCodeString e.code
  else errorCodeString e.code ++ ": " ++ e.message

/-- `tcfs::Result<T>` (include/tcfs/Errors.hpp): either a value, or an
error code together with an error message. -/
inductive Result (α : Type) where
  | ok (a : α)
  | err (code : ErrorCode) (msg : String)
  deriving DecidableEq, Repr

/-- `Result<T>::value()`: returns the held value, and throws a
`TCFSException(error_, error_message_)` in the error state. -/
def Result.value {α : Type} : Result α → Except TCFSException α
  | .ok a => .ok a
  | .err c m => .error ⟨c, m⟩

/-- `Result<T>::has_value()`. -/
def Result.hasValue {α : Type} : Result α → Bool
  | .ok _ => true
  | .err _ _ => false

/-- `tcfs::Result<void>` (the explicit specialization in
include/tcfs/Errors.hpp), kept as its own type as in the source. -/
inductive ResultV where
  | vok
  | verr (code : ErrorCode) (msg : String)
  deriving DecidableEq, Repr

/-- `Result<void>::value()`: no-op on success, throws
`TCFSException(error_, error_message_)` in the error state. -/
def ResultV.value : ResultV → Except TCFSException Unit
  | .vok => .ok ()
  | .verr c m => .error ⟨c, m⟩

/-- `Result<void>::has_value()`. -/
def ResultV.hasValue : ResultV → Bool
  | .vok => true
  | .verr _ _ => false

/-- `enum class CryptoAlgorithm` (include/tcfs/Policy.hpp). -/
inductive CryptoAlgorithm where
  | AES_256_GCM
  deriving DecidableEq, Repr

/-- `enum class KDFType` (include/tcfs/Policy.hpp). -/
inductive KDFType where
  | PBKDF2
  | Argon2id
  deriving DecidableEq, Repr

/-- `tcfs::to_string(CryptoAlgorithm)` (src/libtcfs/core/Policy.cpp). -/
def cryptoAlgorithmString : CryptoAlgorithm → String
  | .AES_256_GCM => "AES-256-GCM"

/-- `tcfs::to_string(KDFType)` (src/libtcfs/core/Policy.cpp). -/
def kdfTypeString : KDFType → String
  | .PBKDF2 => "pbkdf2"
  | .Argon2id => "argon2id"

/-- `tcfs::crypto_algorithm_from_string` (src/libtcfs/core/Policy.cpp). -/
def crypto_algorithm_from_string (s : String) : Result CryptoAlgorithm :=
  if s = "AES-256-GCM" then .ok .AES_256_GCM
  else .err .InvalidArgument ("Unknown crypto algorithm: " ++ s)

/-- `tcfs::kdf_from_string` (src/libtcfs/core/Policy.cpp). -/
def kdf_from_string (s : String) : Result KDFType :=
  if s = "pbkdf2" then .ok .PBKDF2
  else if s = "argon2id" then .ok .Argon2id
  else .err .InvalidArgument ("Unknown KDF type: " ++ s)

/-- `tcfs::Policy` (include/tcfs/Policy.hpp) with its default member
initializers: default-constructed `unlock_at_` is the epoch (0), strings
are empty, `grace_seconds_ = 0`, `algorithm_ = AES_256_GCM`,
`kdf_ = PBKDF2`.  `unlock_at` is in milliseconds since the epoch,
`grace_seconds` is the `uint32_t` member (kept in range by the modelled
JSON setter; theorems carry the `< 2^32` invariant as a hypothesis where
it matters). -/
structure Policy where
  unlock_at : Int := 0
  owner : List Char := []
  label : List Char := []
  notes : List Char := []
  grace_seconds : Nat := 0
  algorithm : CryptoAlgorithm := .AES_256_GCM
  kdf : KDFType := .PBKDF2
  deriving DecidableEq, Repr

/-- `Policy::is_unlock_time_reached()` (src/libtcfs/core/Policy.cpp):
`now >= unlock_at_ - seconds(grace_seconds_)`, with `now` passed
explicitly (the C++ reads the wall clock).  `grace_seconds * 1000`
converts the grace to milliseconds. -/
def Policy.is_unlock_time_reached (p : Policy) (now : Int) : Bool :=
  now ≥ p.unlock_at - (p.grace_seconds : Int) * 1000

/-- `Policy::validate()` (src/libtcfs/core/Policy.cpp): empty owner, unset
(epoch) unlock time, or `unlock_at_ <= now` each yield an
`InvalidPolicy` error, in that order. -/
def Policy.validate (p : Policy) (now : Int) : ResultV :=
  if p.owner = [] then .verr .InvalidPolicy ("Owner cannot be empty")
  else if p.unlock_at = 0 then .verr .InvalidPolicy ("Unlock time must be set")
  else if p.unlock_at ≤ now then .verr .InvalidPolicy ("Unlock time must be in the future")
  else .vok

/-! ### Time utilities (`tcfs::time_utils`, src/libtcfs/core/Policy.cpp)

`parse_rfc3339` matches the regex `(\d{4})-(\d{2})-(\d{2})T(\d{2}):(\d{2}):(\d{2})Z`
with `std::regex_match` (whole-string match), range-checks the fields, fills a
`std::tm` and converts it with `timegm` (which, per POSIX/glibc, normalizes
out-of-range day-of-month by linear day arithmetic and may return any
`time_t`, with `-1` treated by the caller as failure).  `format_rfc3339`
converts with `system_clock::to_time_t` (truncation toward zero of the
sub-second part), splits with `gmtime` and prints `%Y-%m-%dT%H:%M:%SZ`
(each field zero-padded; `%Y` prints the year in decimal, which coincides
with 4-digit zero-padding for the years 1000-9999 arising in the theorems
below). -/

/-- Gregorian leap-year rule used by `timegm`/`gmtime`. -/
def isLeap (y : Nat) : Bool :=
  (y % 4 == 0 && y % 100 != 0) || y % 400 == 0

/-- Days in year `y`. -/
def daysInYear (y : Nat) : Nat :=
  if isLeap y then 366 else 365

/-- Month lengths of year `y` (January first). -/
def monthLengths (y : Nat) : List Nat :=
  [31, if isLeap y then 29 else 28, 31, 30, 31, 30, 31, 31, 30, 31, 30, 31]

/-- Days strictly before month `m` (1-based) in year `y`. -/
def daysBeforeMonth (y m : Nat) : Nat :=
  ((monthLengths y).take (m - 1)).sum

/-- Sum of `daysInYear` over the `n` consecutive years `y, y+1, ..., y+n-1`. -/
def sumYears (y : Nat) : Nat → Nat
  | 0 => 0
  | n + 1 => sumYears y n + daysInYear (y + n)

/-- Day number (relative to 1970-01-01) of year `y`, month `m`, day `d`;
the linear day arithmetic of `timegm`'s normalization, valid on either
side of the epoch. -/
def timegmDays (y m d : Nat) : Int :=
  (if 1970 ≤ y then (sumYears 1970 (y - 1970) : Int) else -(sumYears y (1970 - y) : Int))
    + (daysBeforeMonth y m : Int) + ((d - 1 : Nat) : Int)

/-- `timegm` on an already-"tm"-shaped input: seconds since the epoch. -/
def timegm (y mo d h mi s : Nat) : Int :=
  timegmDays y mo d * 86400 + ((h * 3600 + mi * 60 + s : Nat) : Int)

/-- `gmtime`'s year loop: starting from year `y` with `days` days left,
subtract whole years until fewer than a year remains.  `fuel` bounds the
recursion; every caller passes `fuel > days`, which always suffices
because each step consumes at least 365 days. -/
def civilYearLoop : Nat → Nat → Nat → Nat × Nat
  | 0, y, days => (y, days)
  | fuel + 1, y, days =>
    if days < daysInYear y then (y, days)
    else civilYearLoop fuel (y + 1) (days - daysInYear y)

/-- `gmtime`'s month loop: starting from month number `m` walk the month
lengths until the remaining day-of-year falls inside a month. -/
def monthLoop : Nat → List Nat → Nat → Nat × Nat
  | m, [], rem => (m, rem)
  | m, len :: rest, rem =>
    if rem < len then (m, rem) else monthLoop (m + 1) rest (rem - len)

/-- Broken-down UTC time (`std::tm`, with 1-based month and the full year). -/
structure Tm where
  year : Nat
  month : Nat
  day : Nat
  hour : Nat
  minute : Nat
  second : Nat
  deriving DecidableEq, Repr

/-- `gmtime` for a non-negative `time_t`. -/
def gmtimeN (s : Nat) : Tm :=
  let days := s / 86400
  let rem := s % 86400
  let yd := civilYearLoop (days + 1) 1970 days
  let md := monthLoop 1 (monthLengths yd.1) yd.2
  { year := yd.1, month := md.1, day := md.2 + 1,
    hour := rem / 3600, minute := rem % 3600 / 60, second := rem % 60 }

/-- `gmtime`'s year loop running backwards from 1970, for pre-epoch times:
`deficit ≥ 1` is how many days before 1970-01-01 the instant lies. -/
def civilYearLoopNeg : Nat → Nat → Nat → Nat × Nat
  | 0, y, _ => (y, 0)
  | fuel + 1, y, deficit =>
    if deficit ≤ daysInYear (y - 1) then (y - 1, daysInYear (y - 1) - deficit)
    else civilYearLoopNeg fuel (y - 1) (deficit - daysInYear (y - 1))

/-- `gmtime` for an arbitrary `time_t` (seconds since the epoch); pre-epoch
instants floor-divide into a negative day count and a non-negative
seconds-of-day remainder. -/
def gmtimeZ (t : Int) : Tm :=
  if 0 ≤ t then gmtimeN t.toNat
  else
    let days := Int.fdiv t 86400
    let rem := (Int.emod t 86400).toNat
    let deficit := (-days).toNat
    let yd := civilYearLoopNeg deficit 1970 deficit
    let md := monthLoop 1 (monthLengths yd.1) yd.2
    { year := yd.1, month := md.1, day := md.2 + 1,
      hour := rem / 3600, minute := rem % 3600 / 60, second := rem % 60 }

/-- `system_clock::to_time_t` on our millisecond `time_point`: truncation
toward zero (`duration_cast<seconds>`). -/
def to_time_t (tp : Int) : Int :=
  Int.tdiv tp 1000

/-- `system_clock::from_time_t`: seconds to a millisecond `time_point`. -/
def from_time_t (t : Int) : Int :=
  t * 1000

/-- One decimal digit as a character. -/
def digitChar (n : Nat) : Char :=
  Char.ofNat (48 + n)

/-- Two-digit zero-padded decimal (`%m`, `%d`, `%H`, `%M`, `%S`). -/
def pad2 (n : Nat) : List Char :=
  [digitChar (n / 10), digitChar (n % 10)]

/-- Four-digit decimal year (`%Y` for years 1000-9999). -/
def pad4 (n : Nat) : List Char :=
  [digitChar (n / 1000), digitChar (n / 100 % 10), digitChar (n / 10 % 10), digitChar (n % 10)]

/-- `put_time(utc_tm, "%Y-%m-%dT%H:%M:%SZ")`. -/
def formatTm (tm : Tm) : List Char :=
  pad4 tm.year ++ '-' :: pad2 tm.month ++ '-' :: pad2 tm.day ++
    'T' :: pad2 tm.hour ++ ':' :: pad2 tm.minute ++ ':' :: pad2 tm.second ++ ['Z']

/-- `time_utils::format_rfc3339`. -/
def format_rfc3339 (tp : Int) : List Char :=
  formatTm (gmtimeZ (to_time_t tp))

/-- `\d` of the regex. -/
def isDigitCh (c : Char) : Bool :=
  48 ≤ c.toNat && c.toNat ≤ 57

/-- Value of a decimal digit character. -/
def digitVal (c : Char) : Nat :=
  c.toNat - 48

/-- `std::regex_match` against `(\d{4})-(\d{2})-(\d{2})T(\d{2}):(\d{2}):(\d{2})Z`:
the whole string must have exactly this 20-character shape; on success the
six captured fields are converted with `std::stoi`. -/
def matchRFC3339 : List Char → Option (Nat × Nat × Nat × Nat × Nat × Nat)
  | [y1, y2, y3, y4, a, m1, m2, b, d1, d2, c, h1, h2, e, i1, i2, f, s1, s2, g] =>
    if isDigitCh y1 && isDigitCh y2 && isDigitCh y3 && isDigitCh y4 &&
        isDigitCh m1 && isDigitCh m2 && isDigitCh d1 && isDigitCh d2 &&
        isDigitCh h1 && isDigitCh h2 && isDigitCh i1 && isDigitCh i2 &&
        isDigitCh s1 && isDigitCh s2 &&
        a = '-' && b = '-' && c = 'T' && e = ':' && f = ':' && g = 'Z' then
      some (digitVal y1 * 1000 + digitVal y2 * 100 + digitVal y3 * 10 + digitVal y4,
            digitVal m1 * 10 + digitVal m2,
            digitVal d1 * 10 + digitVal d2,
            digitVal h1 * 10 + digitVal h2,
            digitVal i1 * 10 + digitVal i2,
            digitVal s1 * 10 + digitVal s2)
    else none
  | _ => none

/-- The "Basic validation" range check of `parse_rfc3339` (hour/minute/second
lower bounds are vacuous for parsed digits and omitted as `Nat` facts). -/
def rfc3339FieldsInRange (f : Nat × Nat × Nat × Nat × Nat × Nat) : Bool :=
  let (_, mo, d, h, mi, s) := f
  1 ≤ mo && mo ≤ 12 && 1 ≤ d && d ≤ 31 && h ≤ 23 && mi ≤ 59 && s ≤ 59

/-- `time_utils::parse_rfc3339` (src/libtcfs/core/Policy.cpp), returning the
parsed instant as a millisecond `time_point`.  A `timegm` result of `-1`
is treated as failure, exactly as in the source. -/
def parse_rfc3339 (s : List Char) : Result Int :=
  match matchRFC3339 s with
  | none => .err .InvalidTimeFormat ("Invalid RFC3339 format")
  | some fields =>
    if rfc3339FieldsInRange fields then
      let t := timegm fields.1 fields.2.1 fields.2.2.1 fields.2.2.2.1 fields.2.2.2.2.1 fields.2.2.2.2.2
      if t = -1 then .err .InvalidTimeFormat ("Failed to convert to time_t")
      else .ok (from_time_t t)
    else .err .InvalidTimeFormat ("Invalid date/time values")

/-- `Policy::set_unlock_time(const std::string&)` (src/libtcfs/core/Policy.cpp):
parses the string and throws a `TCFSException(result.error(),
result.error_message())` on failure. -/
def Policy.set_unlock_time (p : Policy) (s : List Char) : Except TCFSException Policy :=
  match parse_rfc3339 s with
  | .err c m => .error ⟨c, m⟩
  | .ok t => .ok { p with unlock_at := t }

/-! ### JSON model and Policy (de)serialization

`nlohmann::json` values are modelled just finely enough for
`Policy::to_json`/`Policy::from_json`: an object is an association list;
a member is a string, an unsigned number, or something else (any other
JSON kind, observed by the code only through `is_string()` /
`is_number_unsigned()` returning false). -/

/-- A JSON value as observed by `Policy::from_json`. -/
inductive JValue where
  | jstr (s : List Char)
  | juint (n : Nat)
  | jother
  deriving DecidableEq, Repr

/-- A JSON object: association list from member names to values
(`nlohmann::json` objects have unique keys; lookup takes the first). -/
def JObject := List (String × JValue)

/-- `json.contains(k)` followed by `json[k]`. -/
def jGet (j : JObject) (k : String) : Option JValue :=
  match j with
  | [] => none
  | (k', v) :: rest => if k' = k then some v else jGet rest k

/-- `json.contains(k) && json[k].is_string()`, then `get<std::string>()`. -/
def jGetStr (j : JObject) (k : String) : Option (List Char) :=
  match jGet j k with
  | some (.jstr s) => some s
  | _ => none

/-- `json.contains(k) && json[k].is_number_unsigned()`, then `get<uint32_t>()`
(the `static_cast` to `uint32_t` reduces the stored value mod `2^32`). -/
def jGetUInt (j : JObject) (k : String) : Option Nat :=
  match jGet j k with
  | some (.juint n) => some (n % 4294967296)
  | _ => none

/-- `Policy::to_json` (src/libtcfs/core/Policy.cpp). -/
def Policy.to_json (p : Policy) : JObject :=
  [("unlock_at", .jstr (format_rfc3339 p.unlock_at)),
   ("owner", .jstr p.owner),
   ("label", .jstr p.label),
   ("notes", .jstr p.notes),
   ("grace_seconds", .juint p.grace_seconds),
   ("algorithm", .jstr (cryptoAlgorithmString p.algorithm).data),
   ("kdf", .jstr (kdfTypeString p.kdf).data)]

/-- `Policy::from_json` (src/libtcfs/core/Policy.cpp): requires a string
`unlock_at`; the `TCFSException` thrown by `set_unlock_time` on a bad
timestamp is caught by the surrounding `catch (const std::exception&)`
and re-wrapped as `InvalidPolicy` with the `"JSON parsing error: "`
prefix around `e.what()`; `owner`/`label`/`notes`/`grace_seconds` are
optional; unknown `algorithm`/`kdf` strings are silently ignored
(`if (algo_result)` / `if (kdf_result)`); the freshly built policy is
re-validated with `Policy::validate` before being returned. -/
def Policy.from_json (j : JObject) (now : Int) : Result Policy :=
  match jGetStr j "unlock_at" with
  | none => .err .InvalidPolicy ("Missing or invalid unlock_at field")
  | some u =>
    match parse_rfc3339 u with
    | .err c m =>
      .err .InvalidPolicy ("JSON parsing error: " ++ TCFSException.whatMessage ⟨c, m⟩)
    | .ok t =>
      let p0 : Policy := { unlock_at := t }
      let p1 := match jGetStr j "owner" with
        | some o => { p0 with owner := o }
        | none => p0
      let p2 := match jGetStr j "label" with
        | some l => { p1 with label := l }
        | none => p1
      let p3 := match jGetStr j "notes" with
        | some n => { p2 with notes := n }
        | none => p2
      let p4 := match jGetUInt j "grace_seconds" with
        | some g => { p3 with grace_seconds := g }
        | none => p3
      let p5 := match jGetStr j "algorithm" with
        | some a =>
          match crypto_algorithm_from_string (String.mk a) with
          | .ok al => { p4 with algorithm := al }
          | .err _ _ => p4
        | none => p4
      let p6 := match jGetStr j "kdf" with
        | some k =>
          match kdf_from_string (String.mk k) with
          | .ok kd => { p5 with kdf := kd }
          | .err _ _ => p5
        | none => p5
      match p6.validate now with
      | .verr c m => .err c m
      | .vok => .ok p6

/-! ### Mock crypto provider (src/libtcfs/crypto/OpenSSLCryptoProvider.cpp,
`MockCryptoProvider`, compiled when OpenSSL is absent) -/

/-- `EncryptedData` (include/tcfs/CryptoProvider.hpp): ciphertext, IV, tag. -/
structure EncryptedData where
  ciphertext : List Nat
  iv : List Nat
  tag : List Nat
  deriving DecidableEq, Repr

/-- The XOR keystream loop shared by `MockCryptoProvider::encrypt` and
`decrypt`: `data[i] ^= key[i % key.size()]; data[i] ^= iv[i % iv.size()]`
(defined behaviour requires non-empty `key` and `iv`, as in the C++). -/
def xorStream (key iv : List Nat) : Nat → List Nat → List Nat
  | _, [] => []
  | i, b :: rest =>
    (b ^^^ key.getD (i % key.length) 0 ^^^ iv.getD (i % iv.length) 0) :: xorStream key iv (i + 1) rest

/-- The tag loop of the mock provider: starting from 16 zero bytes,
`tag[i % 16] ^= key[i]` for each key byte. -/
def tagLoop : Nat → List Nat → List Nat → List Nat
  | _, [], tag => tag
  | i, k :: rest, tag => tagLoop (i + 1) rest (tag.set (i % 16) (tag.getD (i % 16) 0 ^^^ k))

/-- The mock provider's 16-byte authentication tag, a function of the key
alone. -/
def mockTag (key : List Nat) : List Nat :=
  tagLoop 0 key (List.replicate 16 0)

/-- `MockCryptoProvider::encrypt`: XOR "encryption" plus the key-derived tag. -/
def mockEncrypt (plaintext key iv : List Nat) : EncryptedData :=
  { ciphertext := xorStream key iv 0 plaintext, iv := iv, tag := mockTag key }

/-- `MockCryptoProvider::decrypt`: recompute the expected tag from the key,
throw `CRYPTO_ERROR` on mismatch, otherwise XOR-decrypt. -/
def mockDecrypt (encrypted : EncryptedData) (key iv : List Nat) :
    Except TCFSException (List Nat) :=
  if encrypted.tag ≠ mockTag key then
    .error ⟨.CRYPTO_ERROR, "Authentication failed - wrong key"⟩
  else
    .ok (xorStream key iv 0 encrypted.ciphertext)

/-- One lowercase hexadecimal digit (the mock's `std::hex` without
`std::uppercase`). -/
def hexDigit (n : Nat) : Char :=
  if n < 10 then Char.ofNat (48 + n) else Char.ofNat (87 + n)

/-- `MockCryptoProvider::toHex`: each byte as two zero-padded lowercase hex
digits (`setw(2)`/`setfill('0')`; bytes are < 256). -/
def mockToHex : List Nat → List Char
  | [] => []
  | b :: rest => hexDigit (b / 16) :: hexDigit (b % 16) :: mockToHex rest

/-- Value of one hexadecimal digit as accepted by `std::stoul(-, -, 16)`;
`none` models the `std::invalid_argument` it throws on a non-digit. -/
def hexVal (c : Char) : Option Nat :=
  if 48 ≤ c.toNat ∧ c.toNat ≤ 57 then some (c.toNat - 48)
  else if 97 ≤ c.toNat ∧ c.toNat ≤ 102 then some (c.toNat - 87)
  else if 65 ≤ c.toNat ∧ c.toNat ≤ 70 then some (c.toNat - 55)
  else none

/-- `MockCryptoProvider::fromHex`: consume two characters per byte
(`substr(i, 2)` yields a single character at the end of an odd-length
string, which `std::stoul` parses as one digit). -/
def mockFromHex : List Char → Option (List Nat)
  | [] => some []
  | [c] => do
    let v ← hexVal c
    some [v]
  | c1 :: c2 :: rest => do
    let v1 ← hexVal c1
    let v2 ← hexVal c2
    let r ← mockFromHex rest
    some ((v1 * 16 + v2) :: r)

/-- `MockCryptoProvider::toBase64`: empty input encodes to the empty string,
otherwise hex plus the `"_MOCK_B64"` marker. -/
def mockToBase64 (data : List Nat) : List Char :=
  if data = [] then [] else mockToHex data ++ ("_MOCK_B64").data

/-- `MockCryptoProvider::fromBase64`: inputs shorter than 9 characters or
without the `"_MOCK_B64"` suffix throw `InvalidArgument`; the hex part is
then decoded (a non-hex character there throws `std::invalid_argument`
out of `std::stoul`, carried here on the same error channel). -/
def mockFromBase64 (base64 : List Char) : Except TCFSException (List Nat) :=
  if base64.length < 9 ∨ base64.drop (base64.length - 9) ≠ ("_MOCK_B64").data then
    .error ⟨.InvalidArgument, "Invalid mock base64 format"⟩
  else
    match mockFromHex (base64.take (base64.length - 9)) with
    | some v => .ok v
    | none => .error ⟨.InvalidArgument, "Invalid hex digit"⟩

/-! ### Claim C4: reachability and grace monotonicity -/

/-- C4: `is_unlock_time_reached` is true exactly when the current instant is
at or after `unlock_at` minus the grace (in milliseconds), and for a fixed
`unlock_at` and fixed current instant, enlarging `grace_seconds` can only
turn the result from false to true, never from true to false. -/
theorem C4_unlock_reached_iff_and_grace_monotone (p : Policy) (now : Int) (g2 : Nat) :
    (p.is_unlock_time_reached now = true ↔
      p.unlock_at - (p.grace_seconds : Int) * 1000 ≤ now) ∧
    (p.grace_seconds ≤ g2 → p.is_unlock_time_reached now = true →
      Policy.is_unlock_time_reached { p with grace_seconds := g2 } now = true) := by
  unfold Policy.is_unlock_time_reached
  refine ⟨by simp [ge_iff_le], ?_⟩
  intro hg hr
  simp only [ge_iff_le, decide_eq_true_eq] at hr ⊢
  have : (p.grace_seconds : Int) ≤ (g2 : Int) := Int.ofNat_le.mpr hg
  nlinarith

/-- C4 witness. -/
theorem C4_unlock_reached_witness :
    Policy.is_unlock_time_reached { unlock_at := 10000, owner := ['u'], grace_seconds := 7 } 4000 = true :=
  (C4_unlock_reached_iff_and_grace_monotone { unlock_at := 10000, owner := ['u'], grace_seconds := 6 } 4000 7).2
    (by decide) (by decide)

/-! ### Claim C5: the validation gate -/

/-- C5: `validate` fails with an `InvalidPolicy` error exactly when the owner
is empty, or the unlock time is still the default epoch value, or the
unlock time is not strictly after the current instant; and any policy with
a non-empty owner and an unlock time strictly in the future (with the
clock at or after the epoch) validates successfully. -/
theorem C5_validate_gate (p : Policy) (now : Int) :
    ((∃ m, p.validate now = .verr .InvalidPolicy m) ↔
      (p.owner = [] ∨ p.unlock_at = 0 ∨ p.unlock_at ≤ now)) ∧
    (0 ≤ now → p.owner ≠ [] → now < p.unlock_at → p.validate now = .vok) := by
  unfold Policy.validate
  constructor
  · split_ifs with h1 h2 h3 <;> simp_all
  · intro h0 ho hf
    split_ifs with h1 h2 h3
    · exact absurd h1 ho
    · omega
    · omega
    · rfl

/-- C5 witness. -/
theorem C5_validate_witness :
    Policy.validate { unlock_at := 86400000, owner := ['a'] } 0 = .vok :=
  (C5_validate_gate { unlock_at := 86400000, owner := ['a'] } 0).2
    (by decide) (by decide) (by decide)

/-! ### Claim C8: value() on an error result -/

/-- C8: accessing `value()` of a `Result` in the error state does not yield a
defaulted payload; it throws a `TCFSException` carrying exactly that
result's error code and message, and the `Result<void>` specialization
behaves the same way. -/
theorem C8_value_throws_on_error {α : Type} (r : Result α) (rv : ResultV)
    (c : ErrorCode) (m : String) (h : r = .err c m) (hv : rv = .verr c m) :
    r.value = .error ⟨c, m⟩ ∧ rv.value = .error ⟨c, m⟩ := by
  subst h; subst hv; exact ⟨rfl, rfl⟩

/-- C8 witness. -/
theorem C8_value_throws_witness :
    (Result.err .CRYPTO_ERROR "boom" : Result Nat).value = .error ⟨.CRYPTO_ERROR, "boom"⟩ ∧
    (ResultV.verr .CRYPTO_ERROR "boom").value = .error ⟨.CRYPTO_ERROR, "boom"⟩ :=
  C8_value_throws_on_error (Result.err .CRYPTO_ERROR "boom") (ResultV.verr .CRYPTO_ERROR "boom")
    .CRYPTO_ERROR "boom" rfl rfl

/-! ### Claim C6: rejection of malformed RFC3339 strings -/

/-- C6: every string that fails the `YYYY-MM-DDTHH:MM:SSZ` grammar or whose
fields are out of range (month 1-12, day 1-31, hour 0-23, minute/second
0-59) is rejected by `parse_rfc3339` with an `InvalidTimeFormat` error,
and `set_unlock_time` on such a string raises a `TCFSException`
immediately with that same code. -/
theorem C6_parse_rfc3339_rejects_malformed (s : List Char)
    (h : matchRFC3339 s = none ∨
      ∃ f, matchRFC3339 s = some f ∧ rfc3339FieldsInRange f = false) :
    (∃ m, parse_rfc3339 s = .err .InvalidTimeFormat m) ∧
    (∀ p : Policy, ∃ m, p.set_unlock_time s = .error ⟨.InvalidTimeFormat, m⟩) := by
  have hp : ∃ m, parse_rfc3339 s = .err .InvalidTimeFormat m := by
    rcases h with h | ⟨f, hf, hr⟩
    · refine ⟨"Invalid RFC3339 format", ?_⟩
      simp [parse_rfc3339, h]
    · refine ⟨"Invalid date/time values", ?_⟩
      simp [parse_rfc3339, hf, hr]
  obtain ⟨m, hm⟩ := hp
  exact ⟨⟨m, hm⟩, fun p => ⟨m, by simp [Policy.set_unlock_time, hm]⟩⟩

/-- C6 witness: the month-13 string from the specification is rejected. -/
theorem C6_month13_witness :
    ∃ m, parse_rfc3339 ("2025-13-01T00:00:00Z").data = .err .InvalidTimeFormat m :=
  (C6_parse_rfc3339_rejects_malformed ("2025-13-01T00:00:00Z").data
    (Or.inr ⟨(2025, 13, 1, 0, 0, 0), by decide, by decide⟩)).1

/-! ### Claim C10: bad unlock_at strings surface as InvalidPolicy -/

/-- C10: when a policy document's `unlock_at` member is present and a string
but fails to parse as RFC3339, `from_json` reports `InvalidPolicy` with
the `"JSON parsing error: "` prefix around the caught exception's
`what()` text, not an `InvalidTimeFormat` error. -/
theorem C10_from_json_wraps_time_error (j : JObject) (now : Int) (u : List Char)
    (c : ErrorCode) (m : String)
    (hu : jGetStr j "unlock_at" = some u) (hp : parse_rfc3339 u = .err c m) :
    Policy.from_json j now =
      .err .InvalidPolicy ("JSON parsing error: " ++ TCFSException.whatMessage ⟨c, m⟩) := by
  simp only [Policy.from_json, hu, hp]

/-- C10 witness. -/
theorem C10_from_json_wraps_witness :
    Policy.from_json [("unlock_at", JValue.jstr ("tomorrow").data)] 0 =
      .err .InvalidPolicy ("JSON parsing error: Invalid time format: Invalid RFC3339 format") :=
  C10_from_json_wraps_time_error [("unlock_at", JValue.jstr ("tomorrow").data)] 0
    ("tomorrow").data .InvalidTimeFormat "Invalid RFC3339 format" (by decide) (by decide)

/-! ### Claim C1: there is no unlock-path loading mode -/

/-- C1: the single `Policy::from_json` the library implements re-applies the
future-time rule unconditionally, so a well-formed persisted policy whose
unlock instant is already past is rejected even on the unlock path (the
caller in src/cli/main.cpp:309 requests `from_json(json, true)` to skip
time validation, but no such overload exists). -/
theorem C1_no_bypass_mode_for_past_policies :
    Policy.from_json
      [("unlock_at", JValue.jstr ("2020-01-01T00:00:00Z").data),
       ("owner", JValue.jstr ("alice").data)] 1700000000000 =
      .err .InvalidPolicy ("Unlock time must be in the future") := by
  decide


/-! ### Claim C9: unknown algorithm/kdf names are ignored, defaults kept -/

/-- C9: a policy document that is otherwise loadable but whose `algorithm`
and `kdf` members hold strings not among the known names still loads
successfully, and the returned policy keeps the defaults `AES-256-GCM`
and `PBKDF2` for those fields. -/
theorem C9_unknown_algorithm_kdf_ignored (j : JObject) (now : Int)
    (u o a k : List Char) (t : Int)
    (hu : jGetStr j "unlock_at" = some u)
    (hparse : parse_rfc3339 u = .ok t)
    (ho : jGetStr j "owner" = some o) (hoe : o ≠ [])
    (ha : jGetStr j "algorithm" = some a)
    (ha2 : String.mk a ≠ "AES-256-GCM")
    (hk : jGetStr j "kdf" = some k)
    (hk2 : String.mk k ≠ "pbkdf2") (hk3 : String.mk k ≠ "argon2id")
    (ht0 : t ≠ 0) (htn : now < t) :
    ∃ p, Policy.from_json j now = .ok p ∧
      p.algorithm = .AES_256_GCM ∧ p.kdf = .PBKDF2 := by
  simp only [Policy.from_json, hu, hparse, ho, ha, hk,
    crypto_algorithm_from_string, kdf_from_string]
  rw [if_neg ha2, if_neg hk2, if_neg hk3]
  rcases hl : jGetStr j "label" with _ | l <;>
    rcases hn : jGetStr j "notes" with _ | n <;>
      rcases hg : jGetUInt j "grace_seconds" with _ | g <;>
        dsimp only <;>
          (unfold Policy.validate; rw [if_neg hoe, if_neg ht0, if_neg (by omega : ¬ t ≤ now)]) <;>
            exact ⟨_, rfl, trivial, rfl⟩

/-- C9 witness. -/
theorem C9_unknown_algorithm_kdf_witness :
    ∃ p, Policy.from_json
      [("unlock_at", JValue.jstr ("2030-01-01T00:00:00Z").data),
       ("owner", JValue.jstr ("alice").data),
       ("algorithm", JValue.jstr ("ChaCha20-Poly1305").data),
       ("kdf", JValue.jstr ("scrypt").data)] 1700000000000 = .ok p ∧
      p.algorithm = .AES_256_GCM ∧ p.kdf = .PBKDF2 :=
  C9_unknown_algorithm_kdf_ignored
    [("unlock_at", JValue.jstr ("2030-01-01T00:00:00Z").data),
     ("owner", JValue.jstr ("alice").data),
     ("algorithm", JValue.jstr ("ChaCha20-Poly1305").data),
     ("kdf", JValue.jstr ("scrypt").data)] 1700000000000
    ("2030-01-01T00:00:00Z").data ("alice").data ("ChaCha20-Poly1305").data ("scrypt").data
    1893456000000 (by decide) (by decide) (by decide) (by decide) (by decide)
    (by decide) (by decide) (by decide) (by decide) (by decide) (by decide)

/-! ### Claim C2: tamper detection in the mock provider

Helper lemmas about the mock tag loop. -/

/-- `getD` after `set` at the same (in-bounds) index. -/
theorem getD_set_self (l : List Nat) (s v : Nat) (h : s < l.length) :
    (l.set s v).getD s 0 = v := by
  simp [List.getD_eq_getElem?_getD, List.getElem?_set_self h]

/-- `getD` after `set` at a different index. -/
theorem getD_set_ne (l : List Nat) (s t v : Nat) (h : s ≠ t) :
    (l.set s v).getD t 0 = l.getD t 0 := by
  simp [List.getD_eq_getElem?_getD, List.getElem?_set_ne h]

/-- The tag loop preserves the tag buffer's length. -/
theorem tagLoop_length (key : List Nat) : ∀ (i : Nat) (tag : List Nat),
    (tagLoop i key tag).length = tag.length := by
  induction key with
  | nil => intro i tag; rfl
  | cons k rest ih =>
    intro i tag
    simp only [tagLoop, ih, List.length_set]

/-- XOR-ing one tag slot before running the tag loop is the same as XOR-ing
it afterwards: each loop step only XORs values into slots. -/
theorem tagLoop_set_xor (key : List Nat) : ∀ (i : Nat) (tag : List Nat) (s m : Nat),
    s < tag.length →
    tagLoop i key (tag.set s (tag.getD s 0 ^^^ m)) =
      (tagLoop i key tag).set s ((tagLoop i key tag).getD s 0 ^^^ m) := by
  induction key with
  | nil => intro i tag s m _; rfl
  | cons k rest ih =>
    intro i tag s m hs
    by_cases h : i % 16 = s
    · subst h
      have h1 : (tag.set (i % 16) (tag.getD (i % 16) 0 ^^^ m)).getD (i % 16) 0
          = tag.getD (i % 16) 0 ^^^ m := getD_set_self _ _ _ hs
      simp only [tagLoop, h1, List.set_set]
      have h2 : tag.getD (i % 16) 0 ^^^ m ^^^ k = (tag.getD (i % 16) 0 ^^^ k) ^^^ m := by
        rw [Nat.xor_assoc, Nat.xor_assoc, Nat.xor_comm m k]
      rw [h2]
      have h3 : tag.set (i % 16) ((tag.getD (i % 16) 0 ^^^ k) ^^^ m)
          = (tag.set (i % 16) (tag.getD (i % 16) 0 ^^^ k)).set (i % 16)
              ((tag.set (i % 16) (tag.getD (i % 16) 0 ^^^ k)).getD (i % 16) 0 ^^^ m) := by
        rw [getD_set_self _ _ _ hs, List.set_set]
      rw [h3]
      exact ih (i + 1) _ _ m (by simpa using hs)
    · have h1 : (tag.set s (tag.getD s 0 ^^^ m)).getD (i % 16) 0 = tag.getD (i % 16) 0 :=
        getD_set_ne _ _ _ _ (fun hc => h hc.symm)
      simp only [tagLoop, h1]
      have h2 : (tag.set s (tag.getD s 0 ^^^ m)).set (i % 16) (tag.getD (i % 16) 0 ^^^ k)
          = (tag.set (i % 16) (tag.getD (i % 16) 0 ^^^ k)).set s
              ((tag.set (i % 16) (tag.getD (i % 16) 0 ^^^ k)).getD s 0 ^^^ m) := by
        rw [getD_set_ne _ _ _ _ h, List.set_comm _ _ _ (fun hc => h hc.symm)]
      rw [h2]
      exact ih (i + 1) _ _ m (by simpa using hs)

/-- Changing key byte `j` by XOR with `m` changes exactly tag slot
`(i + j) % 16` of the tag-loop result, by XOR with `m`. -/
theorem tagLoop_key_set (key : List Nat) : ∀ (i j m : Nat) (tag : List Nat),
    j < key.length → tag.length = 16 →
    tagLoop i (key.set j (key.getD j 0 ^^^ m)) tag =
      (tagLoop i key tag).set ((i + j) % 16)
        ((tagLoop i key tag).getD ((i + j) % 16) 0 ^^^ m) := by
  induction key with
  | nil => intro i j m tag hj _; simp at hj
  | cons k rest ih =>
    intro i j m tag hj hlen
    match j with
    | 0 =>
      have hg : (k :: rest).getD 0 0 = k := rfl
      have hi : i % 16 < tag.length := by rw [hlen]; exact Nat.mod_lt _ (by norm_num)
      simp only [List.set, hg, tagLoop]
      have h2 : tag.getD (i % 16) 0 ^^^ (k ^^^ m) = (tag.getD (i % 16) 0 ^^^ k) ^^^ m := by
        rw [Nat.xor_assoc]
      rw [h2]
      have h3 : tag.set (i % 16) ((tag.getD (i % 16) 0 ^^^ k) ^^^ m)
          = (tag.set (i % 16) (tag.getD (i % 16) 0 ^^^ k)).set (i % 16)
              ((tag.set (i % 16) (tag.getD (i % 16) 0 ^^^ k)).getD (i % 16) 0 ^^^ m) := by
        rw [getD_set_self _ _ _ hi, List.set_set]
      rw [h3]
      rw [tagLoop_set_xor rest (i + 1) _ (i % 16) m (by simpa using hi)]
      norm_num
    | j' + 1 =>
      have hset : (k :: rest).set (j' + 1) ((k :: rest).getD (j' + 1) 0 ^^^ m)
          = k :: rest.set j' (rest.getD j' 0 ^^^ m) := rfl
      rw [hset]
      simp only [tagLoop]
      rw [ih (i + 1) j' m _ (by simpa using hj) (by simp [hlen])]
      have : i + 1 + j' = i + (j' + 1) := by omega
      rw [this]

/-- XOR-ing a non-zero value into an in-bounds slot changes the list. -/
theorem set_xor_ne_self (l : List Nat) (s m : Nat) (hs : s < l.length) (hm : m ≠ 0) :
    l.set s (l.getD s 0 ^^^ m) ≠ l := by
  intro hc
  have := congrArg (fun t => List.getD t s 0) hc
  simp only [getD_set_self _ _ _ hs] at this
  have : m = 0 := by
    have h2 := congrArg (fun x => l.getD s 0 ^^^ x) this
    simpa [Nat.xor_cancel_left, ← Nat.xor_assoc] using h2
  exact hm this

/-- The mock tag is always 16 bytes. -/
theorem mockTag_length (key : List Nat) : (mockTag key).length = 16 := by
  simp [mockTag, tagLoop_length]

/-- C2 (amended): for every (plaintext, key, iv), flipping any single bit of
the tag or of the key of the `EncryptedData` produced by `mockEncrypt`
makes `mockDecrypt` fail with the mock's crypto error.  (Flipping a bit
of the ciphertext or of the IV is NOT detected by the mock provider -
see the counterexample - because its tag depends on the key alone.) -/
theorem C2_tag_or_key_bitflip_fails (pt key iv : List Nat) (i b : Nat) (hb : b < 8) :
    (i < 16 →
      mockDecrypt
        { ciphertext := (mockEncrypt pt key iv).ciphertext,
          iv := (mockEncrypt pt key iv).iv,
          tag := (mockEncrypt pt key iv).tag.set i
            ((mockEncrypt pt key iv).tag.getD i 0 ^^^ 2 ^ b) } key iv
        = .error ⟨.CRYPTO_ERROR, "Authentication failed - wrong key"⟩) ∧
    (i < key.length →
      mockDecrypt (mockEncrypt pt key iv) (key.set i (key.getD i 0 ^^^ 2 ^ b)) iv
        = .error ⟨.CRYPTO_ERROR, "Authentication failed - wrong key"⟩) := by
  constructor
  · intro hi
    have htag : (mockEncrypt pt key iv).tag = mockTag key := rfl
    have hne : (mockTag key).set i ((mockTag key).getD i 0 ^^^ 2 ^ b) ≠ mockTag key :=
      set_xor_ne_self _ _ _ (by rw [mockTag_length]; exact hi) (by positivity)
    simp only [mockDecrypt, htag]
    rw [if_pos hne]
  · intro hi
    have hkey : mockTag (key.set i (key.getD i 0 ^^^ 2 ^ b)) =
        (mockTag key).set (i % 16) ((mockTag key).getD (i % 16) 0 ^^^ 2 ^ b) := by
      have := tagLoop_key_set key 0 i (2 ^ b) (List.replicate 16 0) hi (by simp)
      simpa [mockTag] using this
    have hne : (mockEncrypt pt key iv).tag ≠ mockTag (key.set i (key.getD i 0 ^^^ 2 ^ b)) := by
      have h1 : (mockEncrypt pt key iv).tag = mockTag key := rfl
      rw [h1, hkey]
      intro hc
      exact set_xor_ne_self (mockTag key) (i % 16) (2 ^ b)
        (by rw [mockTag_length]; exact Nat.mod_lt _ (by norm_num)) (by positivity) hc.symm
    simp only [mockDecrypt]
    rw [if_pos hne]

/-- C2 counterexample: with the 32-byte key of all `0x01` bytes and the
12-byte zero IV, encrypting the one-byte plaintext `[0]` yields ciphertext
`[1]` and the all-zero tag; flipping bit 1 of the ciphertext (`1 ^^^ 2 = 3`)
is not detected - `mockDecrypt` succeeds and silently returns `[2]`, which
differs from the original plaintext `[0]`.  This refutes the claim that any
single ciphertext bit-flip causes decryption to fail. -/
theorem C2_ciphertext_bitflip_not_detected :
    mockEncrypt [0] (List.replicate 32 1) (List.replicate 12 0) =
      { ciphertext := [1], iv := List.replicate 12 0, tag := List.replicate 16 0 } ∧
    mockDecrypt
      { ciphertext := [1 ^^^ 2], iv := List.replicate 12 0, tag := List.replicate 16 0 }
      (List.replicate 32 1) (List.replicate 12 0) = .ok [2] ∧
    (2 : Nat) ≠ 0 :=
  ⟨rfl, rfl, by decide⟩

/-- C2 witness. -/
theorem C2_tag_or_key_bitflip_witness :
    mockDecrypt
      { ciphertext := (mockEncrypt [0] (List.replicate 32 1) (List.replicate 12 0)).ciphertext,
        iv := (mockEncrypt [0] (List.replicate 32 1) (List.replicate 12 0)).iv,
        tag := (mockEncrypt [0] (List.replicate 32 1) (List.replicate 12 0)).tag.set 5
          ((mockEncrypt [0] (List.replicate 32 1) (List.replicate 12 0)).tag.getD 5 0 ^^^ 2 ^ 3) }
      (List.replicate 32 1) (List.replicate 12 0)
      = .error ⟨.CRYPTO_ERROR, "Authentication failed - wrong key"⟩ ∧
    mockDecrypt (mockEncrypt [0] (List.replicate 32 1) (List.replicate 12 0))
      ((List.replicate 32 1).set 5 ((List.replicate 32 1).getD 5 0 ^^^ 2 ^ 3))
      (List.replicate 12 0)
      = .error ⟨.CRYPTO_ERROR, "Authentication failed - wrong key"⟩ :=
  ⟨(C2_tag_or_key_bitflip_fails [0] (List.replicate 32 1) (List.replicate 12 0) 5 3
      (by decide)).1 (by decide),
   (C2_tag_or_key_bitflip_fails [0] (List.replicate 32 1) (List.replicate 12 0) 5 3
      (by decide)).2 (by decide)⟩

/-! ### Claim C3: codec round-trips in the mock provider -/

/-- Decoding inverts encoding for a single hex digit. -/
theorem hexVal_hexDigit : ∀ n : Nat, n < 16 → hexVal (hexDigit n) = some n := by
  decide

/-- The mock hex encoding is two characters per byte. -/
theorem mockToHex_length (b : List Nat) : (mockToHex b).length = 2 * b.length := by
  induction b with
  | nil => rfl
  | cons x rest ih => simp [mockToHex, ih]; omega

/-- The mock hex round-trip: lossless for arbitrary byte sequences,
including the empty one. -/
theorem mockFromHex_mockToHex (b : List Nat) (h : ∀ x ∈ b, x < 256) :
    mockFromHex (mockToHex b) = some b := by
  induction b with
  | nil => rfl
  | cons x rest ih =>
    have hx : x < 256 := h x (by simp)
    have h1 : hexVal (hexDigit (x / 16)) = some (x / 16) := hexVal_hexDigit _ (by omega)
    have h2 : hexVal (hexDigit (x % 16)) = some (x % 16) :=
      hexVal_hexDigit _ (Nat.mod_lt _ (by norm_num))
    have h3 := ih (fun y hy => h y (List.mem_cons_of_mem _ hy))
    simp only [mockToHex, mockFromHex, h1, h2, h3, Option.bind_some, Option.some_bind,
      Option.bind_eq_bind]
    simp
    omega

/-- The mock base64 round-trip holds for non-empty byte sequences. -/
theorem mockFromBase64_mockToBase64 (b : List Nat) (h : ∀ x ∈ b, x < 256) (hne : b ≠ []) :
    mockFromBase64 (mockToBase64 b) = .ok b := by
  have hb64 : mockToBase64 b = mockToHex b ++ ("_MOCK_B64").data := by
    simp [mockToBase64, hne]
  have hlen : (mockToBase64 b).length = 2 * b.length + 9 := by
    rw [hb64, List.length_append, mockToHex_length]; rfl
  have hsub : (mockToBase64 b).length - 9 = (mockToHex b).length := by
    rw [hlen, mockToHex_length]; omega
  have hdrop : (mockToBase64 b).drop ((mockToBase64 b).length - 9) = ("_MOCK_B64").data := by
    rw [hsub, hb64, List.drop_left]
  have htake : (mockToBase64 b).take ((mockToBase64 b).length - 9) = mockToHex b := by
    rw [hsub, hb64, List.take_left]
  have hcond : ¬ ((mockToBase64 b).length < 9 ∨
      (mockToBase64 b).drop ((mockToBase64 b).length - 9) ≠ ("_MOCK_B64").data) := by
    push_neg
    exact ⟨by omega, by rw [hdrop]⟩
  unfold mockFromBase64
  rw [if_neg hcond, htake, mockFromHex_mockToHex b h]

/-- C3 (amended): `fromHex(toHex(b)) = b` for every byte sequence including
the empty one, and `fromBase64(toBase64(b)) = b` for every NON-empty byte
sequence; the empty sequence encodes to the empty string under both
codecs, but decoding the empty base64 string fails (see the
counterexample) instead of returning the empty sequence. -/
theorem C3_codec_roundtrip (b : List Nat) (h : ∀ x ∈ b, x < 256) :
    mockFromHex (mockToHex b) = some b ∧
    (b ≠ [] → mockFromBase64 (mockToBase64 b) = .ok b) ∧
    mockToHex ([] : List Nat) = [] ∧ mockToBase64 ([] : List Nat) = [] :=
  ⟨mockFromHex_mockToHex b h,
   fun hne => mockFromBase64_mockToBase64 b h hne, rfl, rfl⟩

/-- C3 counterexample: the empty sequence encodes to the empty base64
string, but decoding the empty string throws `InvalidArgument` (the
`length < 9` guard) instead of returning the empty sequence, so the
base64 round-trip fails on the empty sequence. -/
theorem C3_empty_base64_fails :
    mockToBase64 ([] : List Nat) = [] ∧
    mockFromBase64 ([] : List Char) =
      .error ⟨.InvalidArgument, "Invalid mock base64 format"⟩ :=
  ⟨rfl, rfl⟩

/-- C3 witness. -/
theorem C3_codec_roundtrip_witness :
    mockFromHex (mockToHex [0, 255]) = some [0, 255] ∧
    mockFromBase64 (mockToBase64 [0, 255]) = .ok [0, 255] :=
  ⟨(C3_codec_roundtrip [0, 255] (by decide)).1,
   (C3_codec_roundtrip [0, 255] (by decide)).2.1 (by decide)⟩

/-! ### Claim C7: the serialization round-trip -/

/-- Every year has at least 365 days. -/
theorem daysInYear_ge (y : Nat) : 365 ≤ daysInYear y := by
  unfold daysInYear; split <;> omega

/-- Peeling the first year off a consecutive-years day sum. -/
theorem sumYears_succ_front (y : Nat) : ∀ n : Nat,
    sumYears y (n + 1) = daysInYear y + sumYears (y + 1) n := by
  intro n
  induction n with
  | zero => simp [sumYears]
  | succ n ih =>
    have h1 : sumYears y (n + 1 + 1) = sumYears y (n + 1) + daysInYear (y + (n + 1)) := rfl
    have h2 : sumYears (y + 1) (n + 1) = sumYears (y + 1) n + daysInYear (y + 1 + n) := rfl
    rw [h1, h2, ih]
    have : y + (n + 1) = y + 1 + n := by omega
    rw [this]
    omega

/-- The `gmtime` year loop returns a year at/after its start, a day-of-year
inside that year, and preserves the total day count. -/
theorem civilYearLoop_correct : ∀ (fuel y days : Nat), days < fuel →
    y ≤ (civilYearLoop fuel y days).1 ∧
    (civilYearLoop fuel y days).2 < daysInYear (civilYearLoop fuel y days).1 ∧
    sumYears y ((civilYearLoop fuel y days).1 - y) + (civilYearLoop fuel y days).2 = days := by
  intro fuel
  induction fuel with
  | zero => intro y days h; omega
  | succ fuel ih =>
    intro y days h
    by_cases hd : days < daysInYear y
    · simp only [civilYearLoop, if_pos hd]
      exact ⟨le_refl _, hd, by simp [sumYears]⟩
    · simp only [civilYearLoop, if_neg hd]
      have hge := daysInYear_ge y
      have hrec := ih (y + 1) (days - daysInYear y) (by omega)
      obtain ⟨ha, hb, hc⟩ := hrec
      refine ⟨by omega, hb, ?_⟩
      have hsub : (civilYearLoop fuel (y + 1) (days - daysInYear y)).1 - y
          = ((civilYearLoop fuel (y + 1) (days - daysInYear y)).1 - (y + 1)) + 1 := by omega
      rw [hsub, sumYears_succ_front]
      omega

/-- The `gmtime` month loop lands inside some month of the list and
preserves the total day count. -/
theorem monthLoop_correct : ∀ (L : List Nat) (m rem : Nat), rem < L.sum →
    ∃ k, k < L.length ∧ (monthLoop m L rem).1 = m + k ∧
      (L.take k).sum + (monthLoop m L rem).2 = rem ∧
      (monthLoop m L rem).2 < L.getD k 0 := by
  intro L
  induction L with
  | nil => intro m rem h; simp at h
  | cons len rest ih =>
    intro m rem h
    by_cases hr : rem < len
    · refine ⟨0, by simp, ?_, ?_, ?_⟩ <;> simp [monthLoop, hr]
    · have hsum : rem - len < rest.sum := by simp at h; omega
      obtain ⟨k, hk1, hk2, hk3, hk4⟩ := ih (m + 1) (rem - len) hsum
      refine ⟨k + 1, by simpa using hk1, ?_, ?_, ?_⟩
      · simp only [monthLoop, if_neg hr]
        omega
      · simp only [monthLoop, if_neg hr, List.take_succ_cons, List.sum_cons]
        omega
      · simpa [monthLoop, if_neg hr] using hk4

/-- The month lengths of a year sum to that year's day count. -/
theorem monthLengths_sum (y : Nat) : (monthLengths y).sum = daysInYear y := by
  unfold monthLengths daysInYear
  rcases isLeap y <;> simp

/-- There are twelve months. -/
theorem monthLengths_length (y : Nat) : (monthLengths y).length = 12 := by
  unfold monthLengths
  rcases isLeap y <;> simp

/-- No month is longer than 31 days. -/
theorem monthLengths_le_31 (y k : Nat) : (monthLengths y).getD k 0 ≤ 31 := by
  unfold monthLengths
  rcases isLeap y <;>
    rcases k with _ | _ | _ | _ | _ | _ | _ | _ | _ | _ | _ | _ | k <;>
      simp [List.getD]

/-- `gmtimeN` produces in-range broken-down fields, and `timegm` inverts it. -/
theorem gmtimeN_correct (s : Nat) :
    1970 ≤ (gmtimeN s).year ∧
    1 ≤ (gmtimeN s).month ∧ (gmtimeN s).month ≤ 12 ∧
    1 ≤ (gmtimeN s).day ∧ (gmtimeN s).day ≤ 31 ∧
    (gmtimeN s).hour ≤ 23 ∧ (gmtimeN s).minute ≤ 59 ∧ (gmtimeN s).second ≤ 59 ∧
    timegm (gmtimeN s).year (gmtimeN s).month (gmtimeN s).day
      (gmtimeN s).hour (gmtimeN s).minute (gmtimeN s).second = (s : Int) := by
  have hyl := civilYearLoop_correct (s / 86400 + 1) 1970 (s / 86400) (by omega)
  set yd := civilYearLoop (s / 86400 + 1) 1970 (s / 86400) with hyd
  obtain ⟨hy1, hy2, hy3⟩ := hyl
  have hml := monthLoop_correct (monthLengths yd.1) 1 yd.2
    (by rw [monthLengths_sum]; exact hy2)
  set md := monthLoop 1 (monthLengths yd.1) yd.2 with hmd
  obtain ⟨k, hk1, hk2, hk3, hk4⟩ := hml
  have hgm : gmtimeN s =
      { year := yd.1, month := md.1, day := md.2 + 1,
        hour := s % 86400 / 3600, minute := s % 86400 % 3600 / 60,
        second := s % 86400 % 60 } := rfl
  rw [hgm]
  dsimp only
  have h31 : md.2 + 1 ≤ 31 := by
    have := monthLengths_le_31 yd.1 k
    omega
  have hrem : s % 86400 < 86400 := Nat.mod_lt _ (by norm_num)
  refine ⟨hy1, by omega, by rw [monthLengths_length] at hk1; omega,
    by omega, h31, by omega, by omega, by omega, ?_⟩
  unfold timegm timegmDays
  rw [if_pos hy1]
  have hdbm : daysBeforeMonth yd.1 md.1 = ((monthLengths yd.1).take k).sum := by
    unfold daysBeforeMonth
    rw [hk2]
    norm_num
  rw [hdbm]
  have hday : (md.2 + 1 - 1 : Nat) = md.2 := by omega
  rw [hday]
  have hfinal : (sumYears 1970 (yd.1 - 1970) + ((monthLengths yd.1).take k).sum + md.2) * 86400
      + (s % 86400 / 3600 * 3600 + s % 86400 % 3600 / 60 * 60 + s % 86400 % 60) = s := by
    omega
  exact_mod_cast hfinal

/-- A formatted decimal digit is recognised by the regex digit class. -/
theorem isDigitCh_digitChar : ∀ n : Nat, n ≤ 9 → isDigitCh (digitChar n) = true := by
  decide

/-- Reading back a formatted decimal digit. -/
theorem digitVal_digitChar : ∀ n : Nat, n ≤ 9 → digitVal (digitChar n) = n := by
  decide

/-- A formatted broken-down time (4-digit year, 2-digit other fields)
matches the RFC3339 regex and yields back its fields. -/
theorem matchRFC3339_formatTm (tm : Tm) (hy : tm.year ≤ 9999) (hmo : tm.month ≤ 99)
    (hd : tm.day ≤ 99) (hh : tm.hour ≤ 99) (hmi : tm.minute ≤ 99) (hs : tm.second ≤ 99) :
    matchRFC3339 (formatTm tm) =
      some (tm.year, tm.month, tm.day, tm.hour, tm.minute, tm.second) := by
  have hform : formatTm tm =
      [digitChar (tm.year / 1000), digitChar (tm.year / 100 % 10),
       digitChar (tm.year / 10 % 10), digitChar (tm.year % 10), '-',
       digitChar (tm.month / 10), digitChar (tm.month % 10), '-',
       digitChar (tm.day / 10), digitChar (tm.day % 10), 'T',
       digitChar (tm.hour / 10), digitChar (tm.hour % 10), ':',
       digitChar (tm.minute / 10), digitChar (tm.minute % 10), ':',
       digitChar (tm.second / 10), digitChar (tm.second % 10), 'Z'] := rfl
  rw [hform]
  simp only [matchRFC3339,
    isDigitCh_digitChar (tm.year / 1000) (by omega),
    isDigitCh_digitChar (tm.year / 100 % 10) (by omega),
    isDigitCh_digitChar (tm.year / 10 % 10) (by omega),
    isDigitCh_digitChar (tm.year % 10) (by omega),
    isDigitCh_digitChar (tm.month / 10) (by omega),
    isDigitCh_digitChar (tm.month % 10) (by omega),
    isDigitCh_digitChar (tm.day / 10) (by omega),
    isDigitCh_digitChar (tm.day % 10) (by omega),
    isDigitCh_digitChar (tm.hour / 10) (by omega),
    isDigitCh_digitChar (tm.hour % 10) (by omega),
    isDigitCh_digitChar (tm.minute / 10) (by omega),
    isDigitCh_digitChar (tm.minute % 10) (by omega),
    isDigitCh_digitChar (tm.second / 10) (by omega),
    isDigitCh_digitChar (tm.second % 10) (by omega),
    digitVal_digitChar (tm.year / 1000) (by omega),
    digitVal_digitChar (tm.year / 100 % 10) (by omega),
    digitVal_digitChar (tm.year / 10 % 10) (by omega),
    digitVal_digitChar (tm.year % 10) (by omega),
    digitVal_digitChar (tm.month / 10) (by omega),
    digitVal_digitChar (tm.month % 10) (by omega),
    digitVal_digitChar (tm.day / 10) (by omega),
    digitVal_digitChar (tm.day % 10) (by omega),
    digitVal_digitChar (tm.hour / 10) (by omega),
    digitVal_digitChar (tm.hour % 10) (by omega),
    digitVal_digitChar (tm.minute / 10) (by omega),
    digitVal_digitChar (tm.minute % 10) (by omega),
    digitVal_digitChar (tm.second / 10) (by omega),
    digitVal_digitChar (tm.second % 10) (by omega)]
  norm_num
  refine ⟨by omega, by omega, by omega, by omega, by omega, by omega⟩

/-- Parsing a formatted epoch-or-later instant whose year is at most 9999
recovers the instant at second precision. -/
theorem parse_format_rfc3339 (t : Int) (h0 : 0 ≤ to_time_t t)
    (hy : (gmtimeZ (to_time_t t)).year ≤ 9999) :
    parse_rfc3339 (format_rfc3339 t) = .ok (from_time_t (to_time_t t)) := by
  have hg : gmtimeZ (to_time_t t) = gmtimeN (to_time_t t).toNat := by
    unfold gmtimeZ
    rw [if_pos h0]
  obtain ⟨h1970, hmo1, hmo2, hd1, hd2, hh, hmi, hs, htg⟩ := gmtimeN_correct (to_time_t t).toNat
  rw [hg] at hy
  have hmatch := matchRFC3339_formatTm (gmtimeN (to_time_t t).toNat) hy
    (by omega) (by omega) (by omega) (by omega) (by omega)
  unfold parse_rfc3339 format_rfc3339
  rw [hg, hmatch]
  dsimp only
  have hrange : rfc3339FieldsInRange
      ((gmtimeN (to_time_t t).toNat).year, (gmtimeN (to_time_t t).toNat).month,
       (gmtimeN (to_time_t t).toNat).day, (gmtimeN (to_time_t t).toNat).hour,
       (gmtimeN (to_time_t t).toNat).minute, (gmtimeN (to_time_t t).toNat).second) = true := by
    simp only [rfc3339FieldsInRange, Bool.and_eq_true, decide_eq_true_eq]
    omega
  rw [if_pos hrange]
  rw [htg]
  have hsec : (((to_time_t t).toNat : Nat) : Int) = to_time_t t := Int.toNat_of_nonneg h0
  rw [hsec, if_neg (by omega : ¬ to_time_t t = -1)]

/-- C7 (amended): for every policy on which `validate` succeeds - provided
additionally that the unlock instant truncated to whole seconds is still
strictly after the current instant, that the instant's UTC year is at
most 9999, and that the clock is at/after the epoch - `from_json (to_json p)`
succeeds and reproduces every field: `owner`, `label`, `notes`,
`grace_seconds` (a `uint32_t`, hence the `< 2^32` bound), `algorithm` and
`kdf` exactly, and `unlock_at` at second precision, the sub-second part
being truncated (`from_time_t (to_time_t _)` floors to the whole second),
not rounded. -/
theorem C7_roundtrip_second_precision (p : Policy) (now : Int)
    (hval : p.validate now = .vok)
    (hnow : 0 ≤ now)
    (hgr : p.grace_seconds < 4294967296)
    (htr : now < from_time_t (to_time_t p.unlock_at))
    (hy : (gmtimeZ (to_time_t p.unlock_at)).year ≤ 9999) :
    Policy.from_json p.to_json now =
      .ok { p with unlock_at := from_time_t (to_time_t p.unlock_at) } := by
  have howner : p.owner ≠ [] := by
    intro hc
    unfold Policy.validate at hval
    rw [if_pos hc] at hval
    exact absurd hval (by simp)
  have hsec : 0 ≤ to_time_t p.unlock_at := by
    by_contra hneg
    push_neg at hneg
    have h1 : from_time_t (to_time_t p.unlock_at) ≤ 0 := by
      unfold from_time_t
      nlinarith
    omega
  have hpf := parse_format_rfc3339 p.unlock_at hsec hy
  have h1 : jGetStr p.to_json "unlock_at" = some (format_rfc3339 p.unlock_at) := rfl
  have h2 : jGetStr p.to_json "owner" = some p.owner := rfl
  have h3 : jGetStr p.to_json "label" = some p.label := rfl
  have h4 : jGetStr p.to_json "notes" = some p.notes := rfl
  have h5 : jGetUInt p.to_json "grace_seconds" = some (p.grace_seconds % 4294967296) := rfl
  have h6 : jGetStr p.to_json "algorithm" = some (cryptoAlgorithmString p.algorithm).data := rfl
  have h7 : jGetStr p.to_json "kdf" = some (kdfTypeString p.kdf).data := rfl
  have h8 : String.mk (cryptoAlgorithmString p.algorithm).data = cryptoAlgorithmString p.algorithm := rfl
  have h9 : String.mk (kdfTypeString p.kdf).data = kdfTypeString p.kdf := rfl
  have hgrace : p.grace_seconds % 4294967296 = p.grace_seconds := Nat.mod_eq_of_lt hgr
  have hne0 : ¬ from_time_t (to_time_t p.unlock_at) = 0 := by omega
  have hnle : ¬ from_time_t (to_time_t p.unlock_at) ≤ now := by omega
  unfold Policy.from_json
  rw [h1]
  dsimp only
  rw [hpf]
  dsimp only
  rw [h2, h3, h4, h5, h6, h7]
  dsimp only
  rw [h8, h9, hgrace]
  have hA : crypto_algorithm_from_string (cryptoAlgorithmString p.algorithm) = .ok p.algorithm := by
    cases p.algorithm
    decide
  have hK : kdf_from_string (kdfTypeString p.kdf) = .ok p.kdf := by
    cases p.kdf <;> decide
  rw [hA, hK]
  dsimp only
  unfold Policy.validate
  rw [if_neg howner, if_neg hne0, if_neg hnle]


/-- C7 counterexample: the policy with `unlock_at` half a second after the
epoch and owner `"a"` validates successfully at `now = 0` (the unlock
instant is strictly in the future), yet `from_json (to_json p)` FAILS:
serialization truncates the unlock instant to the whole second 0, and
deserialization then rejects the policy (`InvalidPolicy`), so the
round-trip does not succeed for every valid policy. -/
theorem C7_truncation_counterexample :
    Policy.validate { unlock_at := 500, owner := ['a'] } 0 = .vok ∧
    Policy.from_json (Policy.to_json { unlock_at := 500, owner := ['a'] }) 0 =
      .err .InvalidPolicy ("Unlock time must be set") :=
  ⟨rfl, rfl⟩

/-- C7 witness. -/
theorem C7_roundtrip_witness :
    Policy.from_json
      (Policy.to_json { unlock_at := 86400000, owner := ['a'], label := ['x'],
                        notes := ['y'], grace_seconds := 30, algorithm := .AES_256_GCM,
                        kdf := .Argon2id }) 0 =
      .ok { unlock_at := 86400000, owner := ['a'], label := ['x'],
            notes := ['y'], grace_seconds := 30, algorithm := .AES_256_GCM,
            kdf := .Argon2id } :=
  C7_roundtrip_second_precision
    { unlock_at := 86400000, owner := ['a'], label := ['x'],
      notes := ['y'], grace_seconds := 30, algorithm := .AES_256_GCM, kdf := .Argon2id } 0
    (by decide) (by decide) (by decide) (by decide) (by decide)
